import Mathlib

/-!
Verification of the synchronized dual-camera recording engine of
`src/dual_camera_recorder.py` (classes `CameraCapture` and
`DualCameraRecorder`).

Shallow embedding conventions:
* Timestamps (Python floats produced by `time.time()`) are modelled as `ℚ`;
  frames (numpy arrays) are abstracted to a `Nat` identifier.
* The per-source frame queue (`queue.Queue(maxsize=2)`) is a `List` whose head
  is the oldest buffered element, as in a FIFO queue.
* The stateful recording loop `DualCameraRecorder._recording_loop` is embedded
  as a fold over a schedule of per-iteration inputs: each iteration records the
  results the loop would obtain from its (up to) three `get_frame` calls and
  whether the two `VideoWriter.write` calls of that iteration succeed.  This is
  the standard deterministic embedding of a loop interacting with concurrent
  queues: quantifying over schedules covers every interleaving.
-/

namespace CameraRecorder

/-- A timestamped frame: the pair `(frame.copy(), timestamp)` that
`CameraCapture._capture_loop` pushes into `frame_queue` (line 78 of
`dual_camera_recorder.py`).  The pixel buffer is abstracted to an id. -/
structure TSFrame where
  frame : Nat
  ts : ℚ
deriving DecidableEq, Repr

/-- One enqueue step of `CameraCapture._capture_loop` (lines 70-83): if the
queue is full (capacity 2, from `buffer_size = 2` in `__init__`), `get_nowait`
discards the oldest entry; then `put(..., block=False)` appends the new frame,
skipping it in the (sequentially unreachable) case that the queue is still
full.  The head of the list is the oldest queued frame. -/
def capturePush (q : List TSFrame) (x : TSFrame) : List TSFrame :=
  let q1 := if 2 ≤ q.length then q.tail else q
  if q1.length < 2 then q1 ++ [x] else q1

/-- Method `CameraCapture.get_frame` (lines 91-99): `frame_queue.get(timeout=...)`
pops the head (oldest) element of the FIFO queue; on an empty queue the
`queue.Empty` timeout is caught and `None` is returned.  The first component
is the returned value, the second the remaining queue. -/
def get_frame (q : List TSFrame) : Option TSFrame × List TSFrame :=
  match q with
  | [] => (none, [])
  | x :: rest => (some x, rest)

/-- Modelled from the spec: the spec (section 4.1) words `get_frame` as
popping "the newest available frame"; the newest buffered frame is the most
recently pushed one, i.e. the last element of the FIFO list.  Defined only to
be compared with the `get_frame` translated from the source. -/
def newestFrame (q : List TSFrame) : Option TSFrame := q.getLast?

/-- The two most recently pushed elements of a list (all of them when fewer
than two were pushed), in push order. -/
def lastTwo (l : List TSFrame) : List TSFrame := l.drop (l.length - 2)

lemma capturePush_eq_lastTwo (q : List TSFrame) (x : TSFrame) (h : q.length ≤ 2) :
    capturePush q x = lastTwo (q ++ [x]) := by
  unfold capturePush lastTwo
  match q with
  | [] => simp
  | [a] => simp
  | [a, b] => simp
  | a :: b :: c :: t => simp at h

lemma length_capturePush_le (q : List TSFrame) (x : TSFrame) (h : q.length ≤ 2) :
    (capturePush q x).length ≤ 2 := by
  rw [capturePush_eq_lastTwo q x h]
  unfold lastTwo
  simp
  omega

lemma lastTwo_append (m t : List TSFrame) :
    lastTwo (lastTwo m ++ t) = lastTwo (m ++ t) := by
  unfold lastTwo
  have hk : m.length - 2 ≤ m.length := Nat.sub_le _ _
  rw [← List.drop_append_of_le_length hk, List.drop_drop, List.length_drop]
  congr 1
  simp only [List.length_append]
  omega

lemma foldl_capturePush (xs : List TSFrame) : ∀ (q : List TSFrame), q.length ≤ 2 →
    List.foldl capturePush q xs = lastTwo (q ++ xs) := by
  induction xs with
  | nil =>
    intro q hq
    unfold lastTwo
    have h0 : q.length - 2 = 0 := by omega
    simp [h0]
  | cons x t ih =>
    intro q hq
    rw [List.foldl_cons, ih (capturePush q x) (length_capturePush_le q x hq),
      capturePush_eq_lastTwo q x hq, lastTwo_append]
    simp

/-- Claim C2: pushes into the capacity-2 per-source queue never block the
producer (the enqueue step is a total function evicting the oldest entry when
full), and after any sequence of pushes starting from the empty queue the
queue holds exactly the two most recently pushed frames, in push order
(`xs.drop (xs.length - 2)` is the list of the last two pushes). -/
theorem queue_eviction_keeps_last_two (xs : List TSFrame) :
    List.foldl capturePush [] xs = xs.drop (xs.length - 2) := by
  have h := foldl_capturePush xs [] (by simp)
  simpa [lastTwo] using h

/-- Claim C7 counterexample: with two buffered frames (pushed in this order,
so the frame with timestamp 2 is the newest available), `get_frame` returns
the frame with timestamp 1 — the oldest queued frame, not the newest.  This
refutes the claim that `get_frame` pops the newest available frame. -/
theorem get_frame_not_newest :
    (get_frame [⟨0, 1⟩, ⟨1, 2⟩]).1 = some ⟨0, 1⟩ ∧
    newestFrame [⟨0, 1⟩, ⟨1, 2⟩] = some ⟨1, 2⟩ ∧
    (get_frame [⟨0, 1⟩, ⟨1, 2⟩]).1 ≠ newestFrame [⟨0, 1⟩, ⟨1, 2⟩] := by
  refine ⟨rfl, rfl, ?_⟩
  decide

/-- Claim C7 (amended): `get_frame` pops the oldest buffered frame (the FIFO
head), which — because the bounded queue evicts oldest-first — is one of the
at most two most recently captured frames; on an empty queue (timeout) it
returns `none`, not an error.  Concretely, after any sequence of pushes the
popped frame is the head of the last-two list, and the pop on the empty queue
yields `none`. -/
theorem get_frame_pops_oldest (xs : List TSFrame) :
    (get_frame (List.foldl capturePush [] xs)).1 = (xs.drop (xs.length - 2)).head? ∧
    (get_frame (List.foldl capturePush [] xs)).2 = (xs.drop (xs.length - 2)).tail ∧
    (get_frame []).1 = none := by
  have h := foldl_capturePush xs [] (by simp)
  simp only [List.nil_append] at h
  rw [h]
  unfold lastTwo
  refine ⟨?_, ?_, rfl⟩ <;> cases xs.drop (xs.length - 2) <;> simp [get_frame]

/-! ## The recording loop of `DualCameraRecorder._recording_loop` -/

/-- The inputs one iteration of `_recording_loop` (lines 253-333) obtains from
its environment: the results of `camera1.get_frame(timeout=0.05)` and
`camera2.get_frame(timeout=0.05)` (lines 256-257), the results of the two
possible retry pulls `get_frame(timeout=0.01)` (lines 287, 305; only the one
the taken branch performs is consumed), and whether the
`VideoWriter.write` calls of this iteration succeed (`writeOk = false` models
an exception raised by a write, caught at lines 282-284 / 298-300 / 316-318,
which breaks the loop). -/
structure IterIn where
  pull1 : Option TSFrame
  pull2 : Option TSFrame
  retry1 : Option TSFrame
  retry2 : Option TSFrame
  writeOk : Bool
deriving DecidableEq, Repr

/-- The state of one run of `_recording_loop`: the loop locals
`last_written_ts1` / `last_written_ts2` (lines 248-249), the instance
counters `frames_written` / `frames_dropped`, the (ghost) trace `written` of
the timestamp pairs of all emitted frame pairs in emission order, and
`aborted`, true once the loop has executed `break` after a failed write. -/
structure RecState where
  lastTs1 : Option ℚ
  lastTs2 : Option ℚ
  framesWritten : Nat
  framesDropped : Nat
  written : List (ℚ × ℚ)
  aborted : Bool
deriving DecidableEq, Repr

/-- The synchronization test of the pairing loop, line 265/267 (also lines
290-291 and 308-309): `time_diff = abs(ts1 - ts2)` is compared strictly
against `self.sync_threshold`. -/
def inWindow (w a b : ℚ) : Bool := |a - b| < w

lemma inWindow_eq_true {w a b : ℚ} : inWindow w a b = true ↔ |a - b| < w := by
  simp [inWindow]

lemma inWindow_eq_false {w a b : ℚ} : inWindow w a b = false ↔ ¬ |a - b| < w := by
  simp [inWindow]

/-- Effect of the write block shared by the three write sites (lines 270-281,
292-300, 310-318): on success both writers receive the frames, the
`last_written_*` locals and `frames_written` are updated and the pair is
appended to the emission trace; on an exception the loop breaks. -/
def writePair (st : RecState) (t1 t2 : ℚ) (ok : Bool) : RecState :=
  if ok then
    { st with lastTs1 := some t1, lastTs2 := some t2,
              framesWritten := st.framesWritten + 1,
              written := st.written ++ [(t1, t2)] }
  else { st with aborted := true }

/-- One iteration of `_recording_loop` (lines 253-333), translated
branch-for-branch from the source.  Note that the dedupe test
`(last_written_ts1 != ts1) and (last_written_ts2 != ts2)` (line 269) guards
only the in-window write site; the two retry write sites (lines 292-297 and
310-315) write whenever the re-compared `time_diff` falls inside the window,
and `frames_dropped` is incremented only when the retry pull returned `None`
(lines 301-302 and 319-320). -/
def recStep (w : ℚ) (st : RecState) (i : IterIn) : RecState :=
  if st.aborted then st
  else
    match i.pull1, i.pull2 with
    | some f1, some f2 =>
      if inWindow w f1.ts f2.ts then
        if st.lastTs1 ≠ some f1.ts ∧ st.lastTs2 ≠ some f2.ts then
          writePair st f1.ts f2.ts i.writeOk
        else st
      else if f1.ts < f2.ts then
        match i.retry1 with
        | some g1 =>
          if inWindow w g1.ts f2.ts then writePair st g1.ts f2.ts i.writeOk else st
        | none => { st with framesDropped := st.framesDropped + 1 }
      else
        match i.retry2 with
        | some g2 =>
          if inWindow w f1.ts g2.ts then writePair st f1.ts g2.ts i.writeOk else st
        | none => { st with framesDropped := st.framesDropped + 1 }
    | _, _ => st

/-- The loop body iterated over a schedule of per-iteration inputs. -/
def recRun (w : ℚ) (st : RecState) (sched : List IterIn) : RecState :=
  sched.foldl (recStep w) st

/-- The loop state at entry of `_recording_loop`: lines 248-251 set
`last_written_ts1 = last_written_ts2 = None` and reset both counters to 0;
the emission trace of the fresh run is empty and no break has occurred. -/
def initRecState : RecState :=
  { lastTs1 := none, lastTs2 := none, framesWritten := 0, framesDropped := 0,
    written := [], aborted := false }

/-- The loop `_recording_loop` as entered with whatever loop-state the recorder object
carries from an earlier recording: lines 248-251 overwrite every component
before the first pairing iteration. -/
def recordingLoop (w : ℚ) (st : RecState) (sched : List IterIn) : RecState :=
  recRun w { st with lastTs1 := none, lastTs2 := none, framesWritten := 0,
                     framesDropped := 0, written := [], aborted := false } sched

/-- Claim C10: every run of the recording loop resets `frames_written` and
`frames_dropped` (and all other loop state) before its first pairing
iteration, so the resulting stats are independent of any counts left over
from an earlier recording of the same recorder object: the loop started from
any two prior states gives identical results, equal to a run from the fresh
initial state. -/
theorem recording_loop_resets_counters (w : ℚ) (st st' : RecState) (sched : List IterIn) :
    recordingLoop w st sched = recordingLoop w st' sched ∧
    recordingLoop w st sched = recRun w initRecState sched := by
  exact ⟨rfl, rfl⟩

/-! ## Lifecycle state of `DualCameraRecorder` -/

/-- The fields of `DualCameraRecorder` relevant to the lifecycle claims:
`recording`, whether each `cv2.VideoWriter` is currently open (created and
not yet released), the `output_dir` attribute, the `sync_threshold`, the
`requested_fps` attribute (absent — `none` — until `start_cameras` has run),
and the two counters. -/
structure Recorder where
  recording : Bool
  w1Open : Bool
  w2Open : Bool
  output_dir : String
  sync_threshold : ℚ
  requested_fps : Option ℚ
  framesWritten : Nat
  framesDropped : Nat
deriving DecidableEq, Repr

/-- Constructor `DualCameraRecorder.__init__` (lines 113-136): not recording, no writers,
`output_dir = "recordings"` (a fixed attribute, not a constructor argument),
`sync_threshold = 0.017`, counters zero, `requested_fps` not yet set. -/
def initRecorder : Recorder :=
  { recording := false, w1Open := false, w2Open := false,
    output_dir := "recordings", sync_threshold := 17/1000,
    requested_fps := none, framesWritten := 0, framesDropped := 0 }

/-- Effect of `start_cameras(width, height, fps)` on the recorder state
(lines 138-142): stores the requested fps and recomputes
`sync_threshold = 1.0 / fps` before starting the devices.  The device
handling itself is external (cv2) and not modelled. -/
def start_cameras (r : Recorder) (fps : ℚ) : Recorder :=
  { r with requested_fps := some fps, sync_threshold := 1 / fps }

/-- Method `stop_recording` (lines 337-352): when not recording it only prints
"Not recording!" and returns; otherwise it clears the recording flag, joins
the loop thread and releases both writers. -/
def stop_recording (r : Recorder) : Recorder :=
  if r.recording = false then r
  else { r with recording := false, w1Open := false, w2Open := false }

/-- The loop `_recording_loop` run against a recorder: the loop body (lines 246-335)
never assigns `self.recording`, never calls `release` on either writer and
never touches the filesystem — on a failed write it only prints the error and
breaks — so the recorder component is returned unchanged and only the loop
state evolves. -/
def loopWithRecorder (r : Recorder) (st : RecState) (sched : List IterIn) :
    Recorder × RecState :=
  (r, recordingLoop r.sync_threshold st sched)

/-- Claim C6: after `start_cameras(_, _, fps)` with positive fps the
synchronization window equals `1 / fps`, and the pairing loop treats two
frames as synchronized exactly when `|ts_a - ts_b| < 1 / fps` (the `inWindow`
test used by every branch of `recStep`). -/
theorem sync_window_is_reciprocal_fps (r : Recorder) (fps : ℚ) (hfps : 0 < fps)
    (ts1 ts2 : ℚ) :
    (start_cameras r fps).sync_threshold = 1 / fps ∧
    (inWindow (start_cameras r fps).sync_threshold ts1 ts2 = true ↔
      |ts1 - ts2| < 1 / fps) := by
  refine ⟨rfl, ?_⟩
  unfold inWindow start_cameras
  simp

/-- Closed witness for claim C6 at fps = 240: the window is exactly 1/240
(≈ 4.17ms), and timestamps 0 and 1/300 are synchronized. -/
theorem sync_window_is_reciprocal_fps_witness :
    (start_cameras initRecorder 240).sync_threshold = 1 / 240 ∧
    (inWindow (start_cameras initRecorder 240).sync_threshold 0 (1/300) = true ↔
      |(0 : ℚ) - 1/300| < 1 / 240) :=
  sync_window_is_reciprocal_fps initRecorder 240 (by norm_num) 0 (1/300)

/-! ## Claim C3: drop accounting on the retry-after-lag path -/

/-- Schedule item for the C3 counterexample: both pulls succeed, the
timestamps 0 and 10 are not within the window (w = 1), camera 1 is behind,
and the retry pull yields a frame at timestamp 5 that is still out of
window. -/
def c3Iter : IterIn :=
  { pull1 := some ⟨0, 0⟩, pull2 := some ⟨1, 10⟩,
    retry1 := some ⟨2, 5⟩, retry2 := none, writeOk := true }

/-- Claim C3 counterexample: in an iteration where both frames are available
but out of window (|0 - 10| ≥ 1) and the single retry from the lagging source
returns a frame still out of window (|5 - 10| ≥ 1), the claim says
`frames_dropped` is incremented for the attempt; the code leaves both
counters untouched — `frames_dropped` stays 0. -/
theorem retry_out_of_window_does_not_count_dropped :
    inWindow 1 (0 : ℚ) 10 = false ∧ inWindow 1 (5 : ℚ) 10 = false ∧
    (recRun 1 initRecState [c3Iter]).framesDropped = 0 ∧
    (recRun 1 initRecState [c3Iter]).framesWritten = 0 := by
  have h1 : inWindow 1 (0 : ℚ) 10 = false := by
    rw [inWindow_eq_false, abs_sub_lt_iff]
    norm_num
  have h2 : inWindow 1 (5 : ℚ) 10 = false := by
    rw [inWindow_eq_false, abs_sub_lt_iff]
    norm_num
  have hrun : recRun 1 initRecState [c3Iter] = initRecState := by
    have hlt : ((0 : ℚ) < 10) := by norm_num
    simp [recRun, recStep, c3Iter, initRecState, h1, h2, hlt]
  exact ⟨h1, h2, by rw [hrun]; rfl, by rw [hrun]; rfl⟩


/-- Claim C3 (amended): in an iteration where both pulled frames are
available but not within the window, `frames_dropped` is incremented exactly
when the single retry pull from the lagging source times out (returns
`None`), and `frames_written` is not incremented in that iteration; when the
retry pull yields a frame that is still out of window, the iteration changes
nothing at all — neither counter moves. -/
theorem drop_counted_only_on_retry_timeout (w : ℚ) (st : RecState) (i : IterIn)
    (f1 f2 : TSFrame) (hab : st.aborted = false)
    (h1 : i.pull1 = some f1) (h2 : i.pull2 = some f2)
    (hw : inWindow w f1.ts f2.ts = false) :
    (f1.ts < f2.ts →
      (i.retry1 = none →
        recStep w st i = { st with framesDropped := st.framesDropped + 1 }) ∧
      (∀ g1, i.retry1 = some g1 → inWindow w g1.ts f2.ts = false →
        recStep w st i = st)) ∧
    (¬ f1.ts < f2.ts →
      (i.retry2 = none →
        recStep w st i = { st with framesDropped := st.framesDropped + 1 }) ∧
      (∀ g2, i.retry2 = some g2 → inWindow w f1.ts g2.ts = false →
        recStep w st i = st)) := by
  constructor
  · intro hlt
    constructor
    · intro hr
      simp [recStep, hab, h1, h2, hw, hlt, hr]
    · intro g1 hr hgw
      simp [recStep, hab, h1, h2, hw, hlt, hr, hgw]
  · intro hge
    constructor
    · intro hr
      simp [recStep, hab, h1, h2, hw, hge, hr]
    · intro g2 hr hgw
      simp [recStep, hab, h1, h2, hw, hge, hr, hgw]

/-- Schedule item for the C3 witness: out-of-window pair, camera 1 behind,
retry times out. -/
def c3WitIter : IterIn :=
  { pull1 := some ⟨0, 0⟩, pull2 := some ⟨1, 10⟩,
    retry1 := none, retry2 := none, writeOk := true }

/-- Closed witness for the amended claim C3: at the concrete iteration where
the retry pull times out, `frames_dropped` is incremented and nothing else
changes. -/
theorem drop_counted_only_on_retry_timeout_witness :
    recStep 1 initRecState c3WitIter =
      { initRecState with framesDropped := initRecState.framesDropped + 1 } :=
  ((drop_counted_only_on_retry_timeout 1 initRecState c3WitIter ⟨0, 0⟩ ⟨1, 10⟩
      rfl rfl rfl (by rw [inWindow_eq_false, abs_sub_lt_iff]; norm_num)).1
    (by norm_num)).1 rfl

/-! ## Claim C5: behaviour after a mid-recording write failure -/

/-- Schedule item for the C5 counterexample: a synchronized pair (both
timestamps 0) whose write raises. -/
def c5Iter : IterIn :=
  { pull1 := some ⟨0, 0⟩, pull2 := some ⟨1, 0⟩,
    retry1 := none, retry2 := none, writeOk := false }

/-- A recorder mid-recording: cameras started at 60 fps, recording flag set,
both writers open. -/
def c5Recorder : Recorder :=
  { start_cameras initRecorder 60 with recording := true, w1Open := true, w2Open := true }

/-- Claim C5 counterexample: when a write fails mid-recording the loop does
break (`aborted`), but `stop_recording` is not invoked internally — after the
loop exits the recording flag is still set and both writers are still open,
contradicting the claim that the writers are closed and the session
terminated; the error is only printed, not surfaced with the stats. -/
theorem write_failure_leaves_writers_open :
    (loopWithRecorder c5Recorder initRecState [c5Iter]).2.aborted = true ∧
    (loopWithRecorder c5Recorder initRecState [c5Iter]).1.recording = true ∧
    (loopWithRecorder c5Recorder initRecState [c5Iter]).1.w1Open = true ∧
    (loopWithRecorder c5Recorder initRecState [c5Iter]).1.w2Open = true := by
  have hw : inWindow ((60 : ℚ)⁻¹) 0 0 = true := by
    rw [inWindow_eq_true]
    norm_num
  have hth : c5Recorder.sync_threshold = 1/60 := by
    simp [c5Recorder, start_cameras]
  refine ⟨?_, rfl, rfl, rfl⟩
  show (recordingLoop c5Recorder.sync_threshold initRecState [c5Iter]).aborted = true
  rw [hth]
  simp [recordingLoop, recRun, recStep, c5Iter, initRecState, writePair, one_div, hw]

lemma recRun_aborted (w : ℚ) (sched : List IterIn) :
    ∀ st : RecState, st.aborted = true → recRun w st sched = st := by
  induction sched with
  | nil => intro st _; rfl
  | cons i rest ih =>
    intro st hab
    show recRun w (recStep w st i) rest = st
    have hstep : recStep w st i = st := by unfold recStep; rw [hab]; simp
    rw [hstep]
    exact ih st hab

/-- Claim C5 (amended): after a failed write the coordinator loop stops — the
`break` makes every further scheduled iteration a no-op — and the recorder
state (recording flag, open writers, output files) is left untouched: the
session is not terminated internally, and the writers are closed only when
the caller itself invokes `stop_recording`; the partially-written files are
never deleted (no branch of the loop or of `stop_recording` removes a
file). -/
theorem write_failure_stops_loop_without_cleanup (w : ℚ) (st : RecState)
    (sched : List IterIn) (r : Recorder) (hab : st.aborted = true)
    (hrec : r.recording = true) :
    recRun w st sched = st ∧
    (loopWithRecorder r st sched).1 = r ∧
    (stop_recording r).recording = false ∧
    (stop_recording r).w1Open = false ∧ (stop_recording r).w2Open = false := by
  refine ⟨recRun_aborted w sched st hab, rfl, ?_, ?_, ?_⟩ <;>
    simp [stop_recording, hrec]

/-- Closed witness for the amended claim C5: from an aborted loop state, a
further iteration changes nothing, the recorder keeps its open writers, and a
caller-side `stop_recording` then closes them. -/
theorem write_failure_stops_loop_without_cleanup_witness :
    recRun 1 { initRecState with aborted := true } [c3Iter] =
      { initRecState with aborted := true } ∧
    (loopWithRecorder c5Recorder { initRecState with aborted := true } [c3Iter]).1 =
      c5Recorder ∧
    (stop_recording c5Recorder).recording = false ∧
    (stop_recording c5Recorder).w1Open = false ∧
    (stop_recording c5Recorder).w2Open = false :=
  write_failure_stops_loop_without_cleanup 1 { initRecState with aborted := true }
    [c3Iter] c5Recorder rfl rfl

/-! ## Codec negotiation and `start_recording` (lines 164-244) -/

/-- The candidate codecs of the `codec_options` list (H264, XVID, mp4v, MJPG)
(line 177). -/
inductive Codec where
  | H264
  | XVID
  | mp4v
  | MJPG
deriving DecidableEq, Repr

/-- The candidate list, in the order the source tries them. -/
def codec_options : List Codec := [.H264, .XVID, .mp4v, .MJPG]

/-- Observable actions of the codec-negotiation loop (lines 179-197): creating
a probe `VideoWriter` for a candidate, calling `release()` on it, and removing
the temporary artifact `test_temp.mp4`. -/
inductive Act where
  | create (c : Codec)
  | release (c : Codec)
  | removeTemp
deriving DecidableEq, Repr

/-- The negotiation loop (lines 179-201), parameterized by the external
predicate `opens` (whether `cv2.VideoWriter(...).isOpened()` holds for a
candidate).  For each candidate a probe writer is created; if it opens, it is
released, the temp file is removed and the candidate is chosen (`break`);
otherwise the loop merely continues with the next candidate — the failed
probe writer is not released and nothing is removed.  If no candidate opens,
the fallback `mp4v` is used (lines 199-201) without a probe.  Returns the
action trace and the chosen codec. -/
def negotiate (opens : Codec → Bool) : List Codec → List Act × Codec
  | [] => ([], .mp4v)
  | c :: rest =>
    if opens c then ([.create c, .release c, .removeTemp], c)
    else
      let r := negotiate opens rest
      (.create c :: r.1, r.2)

/-- Probe outcome for the C8 counterexample: the H264 probe writer fails to
open, every later candidate opens. -/
def opensNotH264 : Codec → Bool
  | .H264 => false
  | _ => true

/-- Claim C8 counterexample: with H264 failing and XVID succeeding, the
negotiation trace is `create H264, create XVID, release XVID, removeTemp` —
the next candidate (XVID) is tried with no `release` of the failed H264 probe
writer and no removal of its temp artifact in between; in fact `release H264`
never occurs at all.  This refutes the claim that every failed candidate
probe writer is closed and its temp artifact removed before the next
candidate is tried. -/
theorem failed_probe_not_cleaned_before_next :
    (negotiate opensNotH264 codec_options).1 =
      [.create .H264, .create .XVID, .release .XVID, .removeTemp] ∧
    Act.release .H264 ∉ (negotiate opensNotH264 codec_options).1 := by
  constructor
  · rfl
  · decide

/-- Claim C8 (amended): the negotiation loop performs cleanup only for the
candidate that succeeds: a candidate whose probe writer fails to open is
never released (its probe writer stays unreleased when the loop moves on or
exhausts the list), the temp artifact is removed exactly when some candidate
in the list opens, and the chosen codec is the first candidate that opens,
with `mp4v` as fallback when none does. -/
theorem failed_probe_writer_never_released (opens : Codec → Bool) (l : List Codec)
    (c : Codec) (hf : opens c = false) :
    Act.release c ∉ (negotiate opens l).1 ∧
    (Act.removeTemp ∈ (negotiate opens l).1 ↔ ∃ d ∈ l, opens d = true) ∧
    (negotiate opens l).2 = (l.find? opens).getD Codec.mp4v := by
  induction l with
  | nil => simp [negotiate]
  | cons a t ih =>
    by_cases ha : opens a = true
    · have hca : c ≠ a := by
        intro h
        rw [h, ha] at hf
        exact Bool.noConfusion hf
      refine ⟨?_, ?_, ?_⟩
      · simp [negotiate, ha, hca]
      · simp [negotiate, ha]
      · simp [negotiate, ha, List.find?_cons_of_pos _ ha]
    · have ha' : opens a = false := by
        cases h : opens a
        · rfl
        · exact absurd h ha
      refine ⟨?_, ?_, ?_⟩
      · simp [negotiate, ha']
        exact ih.1
      · simp [negotiate, ha', ih.2.1, ha]
      · have hfind : List.find? opens (a :: t) = List.find? opens t :=
          List.find?_cons_of_neg _ (by simp [ha'])
        simp [negotiate, ha', ih.2.2, hfind]

/-- Closed witness for the amended claim C8 at the concrete probe outcome
where H264 fails: its probe writer is never released, the temp file is
removed (XVID succeeds) and XVID — the first opening candidate — is
chosen. -/
theorem failed_probe_writer_never_released_witness :
    Act.release Codec.H264 ∉ (negotiate opensNotH264 codec_options).1 ∧
    (Act.removeTemp ∈ (negotiate opensNotH264 codec_options).1 ↔
      ∃ d ∈ codec_options, opensNotH264 d = true) ∧
    (negotiate opensNotH264 codec_options).2 =
      (codec_options.find? opensNotH264).getD Codec.mp4v :=
  failed_probe_writer_never_released opensNotH264 codec_options Codec.H264 rfl

/-! ## `start_recording` (lines 164-244) -/

/-- Python exceptions that `start_recording` can raise: the `TypeError` from
unpacking `None` in `frame1, _ = self.camera1.get_frame(timeout=2.0)`
(lines 207-208) when a queue yields nothing within the timeout, and the
`AttributeError` from reading `self.requested_fps` (line 217) when
`start_cameras` never ran.  Neither is caught inside `start_recording`. -/
inductive PyErr where
  | typeError
  | attributeError
deriving DecidableEq, Repr

/-- Method `DualCameraRecorder.start_recording(output_name)` (lines 164-244),
parameterized by the probe outcome `opens` of the codec negotiation and by
`writersOpen`, whether the two real `cv2.VideoWriter`s open (line 234).
Control flow from the source: an early no-op return when already recording
(lines 166-168); codec negotiation (lines 176-201); output paths
`os.path.join(output_dir, output_name + "_camera1.mp4")` and `..._camera2`
(lines 203-204); then `frame1, _ = camera1.get_frame(timeout=2.0)` — when the
pull returns `None` this unpacking raises `TypeError` before the
`if frame1 is None` guard on line 210 can run; then `self.requested_fps` is
read; the two writers are constructed (lines 231-232) — the output files come
into existence here, before any synchronized pair has been written;
on `isOpened` failure an error is printed and the method returns with
`recording` still false (lines 234-236); otherwise `recording` is set and the
loop thread started.  Returns the recorder, the negotiation action trace and
the list of files created by constructing the writers. -/
def start_recording (r : Recorder) (opens : Codec → Bool) (writersOpen : Bool)
    (q1 q2 : List TSFrame) (output_name : String) :
    Except PyErr (Recorder × List Act × List String) :=
  if r.recording then .ok (r, [], [])
  else
    let neg := negotiate opens codec_options
    let path1 := r.output_dir ++ "/" ++ output_name ++ "_camera1.mp4"
    let path2 := r.output_dir ++ "/" ++ output_name ++ "_camera2.mp4"
    match (get_frame q1).1 with
    | none => .error .typeError
    | some _ =>
      match (get_frame q2).1 with
      | none => .error .typeError
      | some _ =>
        match r.requested_fps with
        | none => .error .attributeError
        | some _ =>
          if writersOpen then
            .ok ({ r with recording := true, w1Open := true, w2Open := true },
              neg.1, [path1, path2])
          else .ok (r, neg.1, [path1, path2])

/-- Probe outcome in which every codec opens. -/
def opensAll : Codec → Bool := fun _ => true

/-- The files created by a `start_recording` call (empty when it raised or
returned before constructing the writers). -/
def startFiles (e : Except PyErr (Recorder × List Act × List String)) : List String :=
  match e with
  | .ok x => x.2.2
  | .error _ => []

/-- Claim C4: calling `start_recording` in state Idle — cameras never
started, both source queues empty, so `get_frame(timeout=2.0)` returns
`None` — raises an uncaught `TypeError` from unpacking `None`
(`frame1, _ = ...`, line 207) instead of reporting an error and returning.
The `if frame1 is None` guard on line 210 shows the intended error report,
but the unpacking on line 207 crashes first: the code contradicts the
claimed (and clearly intended) no-crash behaviour. -/
theorem start_recording_idle_raises :
    start_recording initRecorder opensAll true [] [] "crash" =
      .error PyErr.typeError := rfl

/-- Input state for the C9 counterexample: cameras started at 60 fps and one
frame buffered per source. -/
def c9Recorder : Recorder := start_cameras initRecorder 60

/-- Claim C9 counterexample: for `output_name = "rec"` the recording creates
the files `recordings/rec_camera1.mp4` and `recordings/rec_camera2.mp4` — the
suffix is `_camera1/_camera2`, not the claimed `_source1/_source2` — and it
creates them during `start_recording`, at which point the recording loop has
not yet run and no synchronized pair has been written (`frames_written = 0`,
empty emission trace), contradicting creation "only once the first
synchronized frame pair is ready to write". -/
theorem output_files_camera_named_and_created_early :
    startFiles (start_recording c9Recorder opensAll true [⟨0, 0⟩] [⟨1, 0⟩] "rec") =
      ["recordings/rec_camera1.mp4", "recordings/rec_camera2.mp4"] ∧
    "recordings/rec_source1.mp4" ∉
      startFiles (start_recording c9Recorder opensAll true [⟨0, 0⟩] [⟨1, 0⟩] "rec") ∧
    (recRun (1/60) initRecState []).written = [] ∧
    (recRun (1/60) initRecState []).framesWritten = 0 := by
  refine ⟨rfl, ?_, rfl, rfl⟩
  decide

/-- Claim C9 (amended): every recording that starts successfully produces
exactly two output files, named `<output_name>_camera1.mp4` and
`<output_name>_camera2.mp4`, inside the `output_dir` attribute of the recorder
(the fixed default `"recordings"`; the directory is not a parameter of the
call), and the files are created when `start_recording` constructs the
writers — before the recording loop has written any synchronized pair. -/
theorem start_recording_file_layout (r : Recorder) (opens : Codec → Bool)
    (q1 q2 : List TSFrame) (name : String) (f1 f2 : TSFrame) (fps : ℚ)
    (hrec : r.recording = false) (h1 : (get_frame q1).1 = some f1)
    (h2 : (get_frame q2).1 = some f2) (hfps : r.requested_fps = some fps) :
    start_recording r opens true q1 q2 name =
      .ok ({ r with recording := true, w1Open := true, w2Open := true },
        (negotiate opens codec_options).1,
        [r.output_dir ++ "/" ++ name ++ "_camera1.mp4",
         r.output_dir ++ "/" ++ name ++ "_camera2.mp4"]) ∧
    (startFiles (start_recording r opens true q1 q2 name)).length = 2 := by
  have hr : start_recording r opens true q1 q2 name =
      .ok ({ r with recording := true, w1Open := true, w2Open := true },
        (negotiate opens codec_options).1,
        [r.output_dir ++ "/" ++ name ++ "_camera1.mp4",
         r.output_dir ++ "/" ++ name ++ "_camera2.mp4"]) := by
    simp [start_recording, hrec, h1, h2, hfps]
  exact ⟨hr, by rw [hr]; rfl⟩

/-- Closed witness for the amended claim C9 at a concrete ready recorder:
the two camera-suffixed files under `recordings/` are produced. -/
theorem start_recording_file_layout_witness :
    start_recording c9Recorder opensAll true [⟨0, 0⟩] [⟨1, 0⟩] "rec" =
      .ok ({ c9Recorder with recording := true, w1Open := true, w2Open := true },
        (negotiate opensAll codec_options).1,
        [c9Recorder.output_dir ++ "/" ++ "rec" ++ "_camera1.mp4",
         c9Recorder.output_dir ++ "/" ++ "rec" ++ "_camera2.mp4"]) ∧
    (startFiles (start_recording c9Recorder opensAll true [⟨0, 0⟩] [⟨1, 0⟩] "rec")).length = 2 :=
  start_recording_file_layout c9Recorder opensAll [⟨0, 0⟩] [⟨1, 0⟩] "rec"
    ⟨0, 0⟩ ⟨1, 0⟩ 60 rfl rfl rfl rfl

/-! ## Claim C1: no double-write

The pull results delivered to the loop come from the per-source FIFO queues,
which are filled in capture order with clock timestamps; hence, along any
real execution, the timestamps a source delivers to the loop (its timed pull
followed, within the same iteration, by its retry pull, followed by later
iterations) are non-decreasing.  `SchedMono` states exactly this on a
schedule; unconsumed retry slots are harmlessly included. -/

/-- The timestamps source 1 offers in one iteration, pull before retry. -/
def iterTs1 (i : IterIn) : List ℚ :=
  (i.pull1.map TSFrame.ts).toList ++ (i.retry1.map TSFrame.ts).toList

/-- The timestamps source 2 offers in one iteration, pull before retry. -/
def iterTs2 (i : IterIn) : List ℚ :=
  (i.pull2.map TSFrame.ts).toList ++ (i.retry2.map TSFrame.ts).toList

/-- Every timestamp of iteration `i` is at most every timestamp of the later
iteration `j`, per source. -/
def iterLe (i j : IterIn) : Prop :=
  (∀ a ∈ iterTs1 i, ∀ b ∈ iterTs1 j, a ≤ b) ∧
  (∀ a ∈ iterTs2 i, ∀ b ∈ iterTs2 j, a ≤ b)

/-- Within one iteration, the pull of each source precedes its retry. -/
def IterMono (i : IterIn) : Prop :=
  List.Chain' (· ≤ ·) (iterTs1 i) ∧ List.Chain' (· ≤ ·) (iterTs2 i)

/-- A schedule is monotone when each iteration is internally ordered and the
iterations are pairwise ordered, per source. -/
def SchedMono (sched : List IterIn) : Prop :=
  (∀ i ∈ sched, IterMono i) ∧ List.Pairwise iterLe sched

lemma mem_iterTs1_pull {i : IterIn} {f : TSFrame} (h : i.pull1 = some f) :
    f.ts ∈ iterTs1 i := by
  simp [iterTs1, h]

lemma mem_iterTs1_retry {i : IterIn} {g : TSFrame} (h : i.retry1 = some g) :
    g.ts ∈ iterTs1 i := by
  simp [iterTs1, h]

lemma mem_iterTs2_pull {i : IterIn} {f : TSFrame} (h : i.pull2 = some f) :
    f.ts ∈ iterTs2 i := by
  simp [iterTs2, h]

lemma mem_iterTs2_retry {i : IterIn} {g : TSFrame} (h : i.retry2 = some g) :
    g.ts ∈ iterTs2 i := by
  simp [iterTs2, h]

lemma pull_le_retry1 {i : IterIn} {f g : TSFrame} (hm : IterMono i)
    (hp : i.pull1 = some f) (hr : i.retry1 = some g) : f.ts ≤ g.ts := by
  have h := hm.1
  simp [iterTs1, hp, hr] at h
  exact h

lemma pull_le_retry2 {i : IterIn} {f g : TSFrame} (hm : IterMono i)
    (hp : i.pull2 = some f) (hr : i.retry2 = some g) : f.ts ≤ g.ts := by
  have h := hm.2
  simp [iterTs2, hp, hr] at h
  exact h

/-- Every emitted pair is coordinate-wise bounded by the current
`last_written_*` values (which exist as soon as anything was written). -/
def boundedByLast (st : RecState) : Prop :=
  ∀ p ∈ st.written, ∃ u v, st.lastTs1 = some u ∧ st.lastTs2 = some v ∧
    p.1 ≤ u ∧ p.2 ≤ v

/-- Loop-state invariant: the emission trace has no duplicate timestamp pair
and is bounded by the last written timestamps. -/
def StInv (st : RecState) : Prop := st.written.Nodup ∧ boundedByLast st

lemma writePair_inv {st : RecState} {a b : ℚ} {ok : Bool} (hinv : StInv st)
    (hnotin : (a, b) ∉ st.written)
    (hbnd : ∀ p ∈ st.written, p.1 ≤ a ∧ p.2 ≤ b) :
    StInv (writePair st a b ok) ∧
    (∀ v, (writePair st a b ok).lastTs1 = some v → v = a ∨ st.lastTs1 = some v) ∧
    (∀ v, (writePair st a b ok).lastTs2 = some v → v = b ∨ st.lastTs2 = some v) := by
  unfold writePair
  cases ok
  · simp only [Bool.false_eq_true, if_false]
    exact ⟨hinv, fun v hv => Or.inr hv, fun v hv => Or.inr hv⟩
  · simp only [if_true]
    refine ⟨⟨?_, ?_⟩, ?_, ?_⟩
    · simp [List.nodup_append, hinv.1, hnotin]
    · intro p hp
      rcases List.mem_append.mp hp with hp' | hp'
      · exact ⟨a, b, rfl, rfl, (hbnd p hp').1, (hbnd p hp').2⟩
      · have : p = (a, b) := by simpa using hp'
        subst this
        exact ⟨a, b, rfl, rfl, le_refl _, le_refl _⟩
    · intro v hv
      exact Or.inl (Option.some_injective _ hv).symm
    · intro v hv
      exact Or.inl (Option.some_injective _ hv).symm

lemma recStep_inv (w : ℚ) (st : RecState) (i : IterIn)
    (hm : IterMono i) (hinv : StInv st)
    (hlb1 : ∀ v, st.lastTs1 = some v → ∀ a ∈ iterTs1 i, v ≤ a)
    (hlb2 : ∀ v, st.lastTs2 = some v → ∀ a ∈ iterTs2 i, v ≤ a) :
    StInv (recStep w st i) ∧
    (∀ v, (recStep w st i).lastTs1 = some v → v ∈ iterTs1 i ∨ st.lastTs1 = some v) ∧
    (∀ v, (recStep w st i).lastTs2 = some v → v ∈ iterTs2 i ∨ st.lastTs2 = some v) := by
  have htriv : StInv st ∧
      (∀ v, st.lastTs1 = some v → v ∈ iterTs1 i ∨ st.lastTs1 = some v) ∧
      (∀ v, st.lastTs2 = some v → v ∈ iterTs2 i ∨ st.lastTs2 = some v) :=
    ⟨hinv, fun v hv => Or.inr hv, fun v hv => Or.inr hv⟩
  by_cases hab : st.aborted = true
  · have hst : recStep w st i = st := by
      unfold recStep
      rw [if_pos hab]
    rw [hst]
    exact htriv
  cases h1 : i.pull1 with
  | none =>
    have hst : recStep w st i = st := by
      unfold recStep
      rw [if_neg hab, h1]
    rw [hst]
    exact htriv
  | some f1 =>
    cases h2 : i.pull2 with
    | none =>
      have hst : recStep w st i = st := by
        unfold recStep
        rw [if_neg hab, h1, h2]
      rw [hst]
      exact htriv
    | some f2 =>
      cases hw : inWindow w f1.ts f2.ts with
      | true =>
        by_cases hd : st.lastTs1 ≠ some f1.ts ∧ st.lastTs2 ≠ some f2.ts
        · have hst : recStep w st i = writePair st f1.ts f2.ts i.writeOk := by
            unfold recStep
            rw [if_neg hab, h1, h2]
            simp only [hw, if_true]
            exact if_pos hd
          rw [hst]
          have hnotin : (f1.ts, f2.ts) ∉ st.written := by
            intro hmem
            obtain ⟨u, v, hu, hv, hpu, hpv⟩ := hinv.2 _ hmem
            have hle : u ≤ f1.ts := hlb1 u hu _ (mem_iterTs1_pull h1)
            have : u = f1.ts := le_antisymm hle hpu
            exact hd.1 (this ▸ hu)
          have hbnd : ∀ p ∈ st.written, p.1 ≤ f1.ts ∧ p.2 ≤ f2.ts := by
            intro p hp
            obtain ⟨u, v, hu, hv, hpu, hpv⟩ := hinv.2 _ hp
            exact ⟨le_trans hpu (hlb1 u hu _ (mem_iterTs1_pull h1)),
              le_trans hpv (hlb2 v hv _ (mem_iterTs2_pull h2))⟩
          obtain ⟨hS, hO1, hO2⟩ := writePair_inv hinv hnotin hbnd
          refine ⟨hS, ?_, ?_⟩
          · intro v hv
            rcases hO1 v hv with rfl | hold
            · exact Or.inl (mem_iterTs1_pull h1)
            · exact Or.inr hold
          · intro v hv
            rcases hO2 v hv with rfl | hold
            · exact Or.inl (mem_iterTs2_pull h2)
            · exact Or.inr hold
        · have hst : recStep w st i = st := by
            unfold recStep
            rw [if_neg hab, h1, h2]
            simp only [hw, if_true]
            exact if_neg hd
          rw [hst]
          exact htriv
      | false =>
        by_cases hlt : f1.ts < f2.ts
        · cases hr : i.retry1 with
          | none =>
            have hst : recStep w st i =
                { st with framesDropped := st.framesDropped + 1 } := by
              unfold recStep
              rw [if_neg hab, h1, h2]
              simp only [hw, Bool.false_eq_true, if_false]
              rw [if_pos hlt, hr]
            rw [hst]
            exact htriv
          | some g1 =>
            cases hw2 : inWindow w g1.ts f2.ts with
            | true =>
              have hst : recStep w st i = writePair st g1.ts f2.ts i.writeOk := by
                unfold recStep
                rw [if_neg hab, h1, h2]
                simp only [hw, Bool.false_eq_true, if_false]
                rw [if_pos hlt, hr]
                simp only [hw2, if_true]
              rw [hst]
              have hple : f1.ts ≤ g1.ts := pull_le_retry1 hm h1 hr
              have hnotin : (g1.ts, f2.ts) ∉ st.written := by
                intro hmem
                obtain ⟨u, v, hu, hv, hpu, hpv⟩ := hinv.2 _ hmem
                have hle : u ≤ f1.ts := hlb1 u hu _ (mem_iterTs1_pull h1)
                have heq : f1.ts = g1.ts :=
                  le_antisymm hple (le_trans hpu hle)
                rw [heq] at hw
                rw [hw] at hw2
                exact Bool.noConfusion hw2
              have hbnd : ∀ p ∈ st.written, p.1 ≤ g1.ts ∧ p.2 ≤ f2.ts := by
                intro p hp
                obtain ⟨u, v, hu, hv, hpu, hpv⟩ := hinv.2 _ hp
                exact ⟨le_trans hpu (le_trans (hlb1 u hu _ (mem_iterTs1_pull h1)) hple),
                  le_trans hpv (hlb2 v hv _ (mem_iterTs2_pull h2))⟩
              obtain ⟨hS, hO1, hO2⟩ := writePair_inv hinv hnotin hbnd
              refine ⟨hS, ?_, ?_⟩
              · intro v hv
                rcases hO1 v hv with rfl | hold
                · exact Or.inl (mem_iterTs1_retry hr)
                · exact Or.inr hold
              · intro v hv
                rcases hO2 v hv with rfl | hold
                · exact Or.inl (mem_iterTs2_pull h2)
                · exact Or.inr hold
            | false =>
              have hst : recStep w st i = st := by
                unfold recStep
                rw [if_neg hab, h1, h2]
                simp only [hw, Bool.false_eq_true, if_false]
                rw [if_pos hlt, hr]
                simp only [hw2, Bool.false_eq_true, if_false]
              rw [hst]
              exact htriv
        · cases hr : i.retry2 with
          | none =>
            have hst : recStep w st i =
                { st with framesDropped := st.framesDropped + 1 } := by
              unfold recStep
              rw [if_neg hab, h1, h2]
              simp only [hw, Bool.false_eq_true, if_false]
              rw [if_neg hlt, hr]
            rw [hst]
            exact htriv
          | some g2 =>
            cases hw2 : inWindow w f1.ts g2.ts with
            | true =>
              have hst : recStep w st i = writePair st f1.ts g2.ts i.writeOk := by
                unfold recStep
                rw [if_neg hab, h1, h2]
                simp only [hw, Bool.false_eq_true, if_false]
                rw [if_neg hlt, hr]
                simp only [hw2, if_true]
              rw [hst]
              have hple : f2.ts ≤ g2.ts := pull_le_retry2 hm h2 hr
              have hnotin : (f1.ts, g2.ts) ∉ st.written := by
                intro hmem
                obtain ⟨u, v, hu, hv, hpu, hpv⟩ := hinv.2 _ hmem
                have hle : v ≤ f2.ts := hlb2 v hv _ (mem_iterTs2_pull h2)
                have heq : f2.ts = g2.ts :=
                  le_antisymm hple (le_trans hpv hle)
                rw [heq] at hw
                rw [hw] at hw2
                exact Bool.noConfusion hw2
              have hbnd : ∀ p ∈ st.written, p.1 ≤ f1.ts ∧ p.2 ≤ g2.ts := by
                intro p hp
                obtain ⟨u, v, hu, hv, hpu, hpv⟩ := hinv.2 _ hp
                exact ⟨le_trans hpu (hlb1 u hu _ (mem_iterTs1_pull h1)),
                  le_trans hpv (le_trans (hlb2 v hv _ (mem_iterTs2_pull h2)) hple)⟩
              obtain ⟨hS, hO1, hO2⟩ := writePair_inv hinv hnotin hbnd
              refine ⟨hS, ?_, ?_⟩
              · intro v hv
                rcases hO1 v hv with rfl | hold
                · exact Or.inl (mem_iterTs1_pull h1)
                · exact Or.inr hold
              · intro v hv
                rcases hO2 v hv with rfl | hold
                · exact Or.inl (mem_iterTs2_retry hr)
                · exact Or.inr hold
            | false =>
              have hst : recStep w st i = st := by
                unfold recStep
                rw [if_neg hab, h1, h2]
                simp only [hw, Bool.false_eq_true, if_false]
                rw [if_neg hlt, hr]
                simp only [hw2, Bool.false_eq_true, if_false]
              rw [hst]
              exact htriv

lemma recRun_inv (w : ℚ) (sched : List IterIn) : ∀ st : RecState,
    SchedMono sched → StInv st →
    (∀ v, st.lastTs1 = some v → ∀ j ∈ sched, ∀ a ∈ iterTs1 j, v ≤ a) →
    (∀ v, st.lastTs2 = some v → ∀ j ∈ sched, ∀ a ∈ iterTs2 j, v ≤ a) →
    StInv (recRun w st sched) := by
  induction sched with
  | nil =>
    intro st _ hinv _ _
    exact hinv
  | cons i rest ih =>
    intro st hs hinv hlb1 hlb2
    have hmono_i : IterMono i := hs.1 i (List.mem_cons_self i rest)
    have hpair := List.pairwise_cons.mp hs.2
    have hs' : SchedMono rest :=
      ⟨fun j hj => hs.1 j (List.mem_cons_of_mem i hj), hpair.2⟩
    obtain ⟨hinv', hO1, hO2⟩ := recStep_inv w st i hmono_i hinv
      (fun v hv a ha => hlb1 v hv i (List.mem_cons_self i rest) a ha)
      (fun v hv a ha => hlb2 v hv i (List.mem_cons_self i rest) a ha)
    show StInv (recRun w (recStep w st i) rest)
    apply ih (recStep w st i) hs' hinv'
    · intro v hv j hj a ha
      rcases hO1 v hv with hmem | hold
      · exact (hpair.1 j hj).1 v hmem a ha
      · exact hlb1 v hold j (List.mem_cons_of_mem i hj) a ha
    · intro v hv j hj a ha
      rcases hO2 v hv with hmem | hold
      · exact (hpair.1 j hj).2 v hmem a ha
      · exact hlb2 v hold j (List.mem_cons_of_mem i hj) a ha

/-- Claim C1: for every run of the recording loop over a monotone schedule
(per-source pull timestamps delivered in non-decreasing order, as the FIFO
queues and the capture clock guarantee), no two emitted pairs share an
identical `(ts_a, ts_b)` timestamp combination — the emission trace, which
includes the pairs emitted via the retry-after-lag path, has no
duplicates. -/
theorem no_double_write (w : ℚ) (st : RecState) (sched : List IterIn)
    (h : SchedMono sched) :
    (recordingLoop w st sched).written.Nodup := by
  have h0 : StInv initRecState := by
    constructor
    · exact List.nodup_nil
    · intro p hp
      simp [initRecState] at hp
  have hres : StInv (recRun w initRecState sched) := by
    apply recRun_inv w sched initRecState h h0
    · intro v hv
      simp [initRecState] at hv
    · intro v hv
      simp [initRecState] at hv
  exact hres.1

/-- First witness iteration: a synchronized pair at timestamps (10, 10),
written through the direct path. -/
def c1Iter1 : IterIn :=
  { pull1 := some ⟨0, 10⟩, pull2 := some ⟨1, 10⟩,
    retry1 := none, retry2 := none, writeOk := true }

/-- Second witness iteration: pulls at 11 and 30 are out of window (w = 10),
camera 1 lags, and its retry at 25 lands in window, so the pair (25, 30) is
emitted via the retry path. -/
def c1Iter2 : IterIn :=
  { pull1 := some ⟨2, 11⟩, pull2 := some ⟨3, 30⟩,
    retry1 := some ⟨4, 25⟩, retry2 := none, writeOk := true }

/-- Closed witness for claim C1: the concrete two-iteration schedule (one
direct write, one retry-path write) is monotone and its emission trace has no
duplicate timestamp pair. -/
theorem no_double_write_witness :
    SchedMono [c1Iter1, c1Iter2] ∧
    (recordingLoop 10 initRecState [c1Iter1, c1Iter2]).written.Nodup := by
  have hm1 : IterMono c1Iter1 := by
    constructor <;> simp [iterTs1, iterTs2, c1Iter1]
  have hm2 : IterMono c1Iter2 := by
    constructor <;> norm_num [iterTs1, iterTs2, c1Iter2]
  have hle : iterLe c1Iter1 c1Iter2 := by
    constructor
    · intro a ha b hb
      simp [iterTs1, c1Iter1, c1Iter2] at ha hb
      subst ha
      rcases hb with rfl | rfl <;> norm_num
    · intro a ha b hb
      simp [iterTs2, c1Iter1, c1Iter2] at ha hb
      subst ha
      subst hb
      norm_num
  have hs : SchedMono [c1Iter1, c1Iter2] := by
    constructor
    · intro i hi
      rcases List.mem_cons.mp hi with rfl | hi2
      · exact hm1
      · rcases List.mem_cons.mp hi2 with rfl | h
        · exact hm2
        · exact absurd h (List.not_mem_nil i)
    · refine List.pairwise_cons.mpr ⟨?_, ?_⟩
      · intro j hj
        rcases List.mem_cons.mp hj with rfl | h
        · exact hle
        · exact absurd h (List.not_mem_nil j)
      · exact List.pairwise_singleton _ _
  exact ⟨hs, no_double_write 10 initRecState [c1Iter1, c1Iter2] hs⟩

end CameraRecorder
